import Mathlib

/-!
Verification of the diagnostic / trace subsystem of GNU m4
(src/m4/debug.c and src/m4/utility.c), as a shallow embedding in Lean.

Machine integers are modelled as Nat/Int (no overflow is reachable in the
properties below); C strings are modelled as `List Char` byte sequences in
which the byte `'\x00'` plays the role of the terminating NUL where the code
is sensitive to it, and as Lean `String`s elsewhere.
-/

namespace M4Spec

/-- Modelled from the spec: the debug-level bit constants come from the header
m4private.h, which is not part of the two source files.  The spec describes
the level as "a bitmask of independent flags", so each named flag is given a
distinct bit; the documented default subset is args+expansion+quote. -/
def M4_DEBUG_TRACE_ARGS : Nat := 1

/-- Modelled from the spec: trace-expansion flag bit. -/
def M4_DEBUG_TRACE_EXPANSION : Nat := 2

/-- Modelled from the spec: quote-traced-text flag bit. -/
def M4_DEBUG_TRACE_QUOTE : Nat := 4

/-- Modelled from the spec: trace-line flag bit. -/
def M4_DEBUG_TRACE_LINE : Nat := 8

/-- Modelled from the spec: trace-file flag bit. -/
def M4_DEBUG_TRACE_FILE : Nat := 16

/-- Modelled from the spec: trace-path flag bit. -/
def M4_DEBUG_TRACE_PATH : Nat := 32

/-- Modelled from the spec: trace-call flag bit. -/
def M4_DEBUG_TRACE_CALL : Nat := 64

/-- Modelled from the spec: trace-input flag bit. -/
def M4_DEBUG_TRACE_INPUT : Nat := 128

/-- Modelled from the spec: trace-call-id flag bit. -/
def M4_DEBUG_TRACE_CALLID : Nat := 256

/-- Modelled from the spec: verbose flag bit. -/
def M4_DEBUG_TRACE_VERBOSE : Nat := 512

/-- Modelled from the spec: the union of every flag bit ('t' sets all). -/
def M4_DEBUG_TRACE_ALL : Nat := 1023

/-- Modelled from the spec: the documented default subset used for an empty
or absent flag string. -/
def M4_DEBUG_TRACE_DEFAULT : Nat :=
  M4_DEBUG_TRACE_ARGS ||| M4_DEBUG_TRACE_EXPANSION ||| M4_DEBUG_TRACE_QUOTE

/-- True when the bitmask `level` carries the flag `flag`
(the C test `debug_level & FLAG`). -/
def hasFlag (level flag : Nat) : Bool := level &&& flag ≠ 0

/-- The letter-to-flag table of the switch in m4_debug_decode
(src/m4/debug.c, lines 66-114); `none` is the `default:` case. -/
def flagBit (c : Char) : Option Nat :=
  if c = 'a' then some M4_DEBUG_TRACE_ARGS
  else if c = 'e' then some M4_DEBUG_TRACE_EXPANSION
  else if c = 'q' then some M4_DEBUG_TRACE_QUOTE
  else if c = 't' then some M4_DEBUG_TRACE_ALL
  else if c = 'l' then some M4_DEBUG_TRACE_LINE
  else if c = 'f' then some M4_DEBUG_TRACE_FILE
  else if c = 'p' then some M4_DEBUG_TRACE_PATH
  else if c = 'c' then some M4_DEBUG_TRACE_CALL
  else if c = 'i' then some M4_DEBUG_TRACE_INPUT
  else if c = 'x' then some M4_DEBUG_TRACE_CALLID
  else if c = 'V' then some M4_DEBUG_TRACE_VERBOSE
  else none

/-- The loop of m4_debug_decode: accumulate flag bits left to right; an
unrecognized character returns -1 at once (src/m4/debug.c, lines 64-115). -/
def decodeChars : List Char → Nat → Int
  | [], level => Int.ofNat level
  | c :: cs, level =>
    match flagBit c with
    | some b => decodeChars cs (level ||| b)
    | none => -1

/-- m4_debug_decode (src/m4/debug.c, lines 55-124): a NULL or empty OPTS
yields the default level, otherwise the characters are folded into a
bitmask, failing as a whole (-1) on the first unrecognized character.
(The obstack_free of the pending trace buffer on success is modelled
separately by the trace state and is irrelevant to the returned level.) -/
def m4_debug_decode (opts : Option String) : Int :=
  match opts with
  | none => Int.ofNat M4_DEBUG_TRACE_DEFAULT
  | some s => if s = "" then Int.ofNat M4_DEBUG_TRACE_DEFAULT
              else decodeChars s.toList 0

/-- A variadic argument consumed by m4_trace_format: either a string
argument (for %s / %S) or an int argument (for %d). -/
inductive TArg where
  | str (s : String)
  | int (n : Int)
deriving DecidableEq

/-- The ambient globals the tracing code reads: the debug_level bitmask,
the externally owned quote strings, max_debug_argument_length, the current
file/line, the expansion level, and the external reverse lookup from a
builtin function reference to its registered name
(m4_builtin_find_by_func, external to the two source files). -/
structure DebugCtx where
  debug_level : Nat
  lquote : String
  rquote : String
  max_debug_argument_length : Nat
  m4_current_file : String
  m4_current_line : Int
  m4_expansion_level : Int
  builtin_name : Nat → Option String

/-- The obstack TRACE plus the lines already flushed to the debug stream:
`buf` is the byte sequence accumulated for the line under construction,
`lines` the fully flushed lines in emission order. -/
structure TraceState where
  buf : List Char
  lines : List (List Char)
deriving DecidableEq

/-- Model of sprintf (nbuf, "%d", d). -/
def sprintf_d (d : Int) : String := toString d

/-- The inner scanning loop of m4_trace_format
(`while ((ch = *fmt++) != '\0' && ch != '%')`): returns the literal bytes
copied to the obstack and, when a terminator was found inside the known
bytes, that terminator together with the bytes that follow it.  `none`
means the scan ran off the end of the known byte sequence, i.e. the C code
reads memory beyond what the caller handed it. -/
def scanTo : List Char → List Char × Option (Char × List Char)
  | [] => ([], none)
  | c :: cs =>
    if c = '\x00' ∨ c = '%' then ([], some (c, cs))
    else
      let r := scanTo cs
      (c :: r.1, r.2)

/-- One %-directive of m4_trace_format (the switch at src/m4/debug.c lines
260-296 together with the truncation logic at lines 289-296): given the
directive byte and the remaining variadic arguments, produce the bytes to
grow onto the obstack and the arguments left.  `none` models the undefined
behaviour of reading a missing or wrongly typed variadic argument. -/
def runDirective (ctx : DebugCtx) (d : Char) (args : List TArg) :
    Option (List Char × List TArg) :=
  let emit : String → Nat → List TArg → Option (List Char × List TArg) :=
    fun s maxlen rest =>
      let slen := s.length
      if maxlen = 0 ∨ maxlen > slen then some (s.toList, rest)
      else some (s.toList.take maxlen ++ ['.', '.', '.'], rest)
  if d = 'S' then
    match args with
    | TArg.str s :: rest => emit s ctx.max_debug_argument_length rest
    | _ => none
  else if d = 's' then
    match args with
    | TArg.str s :: rest => emit s 0 rest
    | _ => none
  else if d = 'l' then
    emit (if hasFlag ctx.debug_level M4_DEBUG_TRACE_QUOTE then ctx.lquote else "") 0 args
  else if d = 'r' then
    emit (if hasFlag ctx.debug_level M4_DEBUG_TRACE_QUOTE then ctx.rquote else "") 0 args
  else if d = 'd' then
    match args with
    | TArg.int n :: rest => emit (sprintf_d n) 0 rest
    | _ => none
  else
    emit "" 0 args

/-- The outer loop of m4_trace_format (src/m4/debug.c, lines 251-297),
fuelled: `bytes` is the byte sequence in memory starting at `fmt` (so a
well-formed call passes the format's characters followed by `'\x00'`),
`args` the variadic arguments, `acc` the obstack contents so far.  `none`
models undefined behaviour: the scan or the directive dispatch ran past
the known bytes (or read a bad variadic argument), so no result within
the given bytes exists. -/
def runFmt (ctx : DebugCtx) : Nat → List Char → List TArg → List Char →
    Option (List Char)
  | 0, _, _, _ => none
  | n + 1, bytes, args, acc =>
    match scanTo bytes with
    | (_, none) => none
    | (lit, some (ch, rest)) =>
      if ch = '\x00' then some (acc ++ lit)
      else
        match rest with
        | [] => none
        | d :: rest2 =>
          match runDirective ctx d args with
          | none => none
          | some (grown, args2) =>
            runFmt ctx n rest2 args2 (acc ++ lit ++ grown)

/-- m4_trace_format as called on a NUL-terminated format string: the bytes
are the format's characters followed by the terminating NUL, and the fuel
(one outer iteration consumes at least one byte) is sufficient for every
format that terminates within its own bytes. -/
def m4_trace_format (ctx : DebugCtx) (fmt : String) (args : List TArg)
    (st : TraceState) : Option TraceState :=
  match runFmt ctx (fmt.length + 2) (fmt.toList ++ ['\x00']) args st.buf with
  | none => none
  | some buf2 => some { st with buf := buf2 }

/-- m4_trace_header (src/m4/debug.c, lines 306-317). -/
def m4_trace_header (ctx : DebugCtx) (id : Int) (st : TraceState) :
    Option TraceState :=
  (m4_trace_format ctx "m4trace:" [] st).bind fun st1 =>
  (if hasFlag ctx.debug_level M4_DEBUG_TRACE_FILE then
      m4_trace_format ctx "%s:" [TArg.str ctx.m4_current_file] st1
    else some st1).bind fun st2 =>
  (if hasFlag ctx.debug_level M4_DEBUG_TRACE_LINE then
      m4_trace_format ctx "%d:" [TArg.int ctx.m4_current_line] st2
    else some st2).bind fun st3 =>
  (m4_trace_format ctx " -%d- " [TArg.int ctx.m4_expansion_level] st3).bind fun st4 =>
  if hasFlag ctx.debug_level M4_DEBUG_TRACE_CALLID then
    m4_trace_format ctx "id %d: " [TArg.int id] st4
  else some st4

/-- m4_trace_flush (src/m4/debug.c, lines 323-332): print the accumulated
line to the debug destination and clear the obstack. -/
def m4_trace_flush (st : TraceState) : TraceState :=
  { buf := [], lines := st.lines ++ [st.buf] }

/-- m4_trace_prepre (src/m4/debug.c, lines 339-345). -/
def m4_trace_prepre (ctx : DebugCtx) (name : String) (id : Int)
    (st : TraceState) : Option TraceState :=
  (m4_trace_header ctx id st).bind fun st1 =>
  (m4_trace_format ctx "%s ..." [TArg.str name] st1).bind fun st2 =>
  some (m4_trace_flush st2)

/-- A macro argument as rendered by m4_trace_pre: token data that is either
text or a builtin function reference (M4_TOKEN_TEXT / M4_TOKEN_FUNC). -/
inductive TokenData where
  | text (t : String)
  | func (f : Nat)
deriving DecidableEq

/-- The argument loop of m4_trace_pre (src/m4/debug.c, lines 365-393):
`first` is true exactly when the next argument is argv[1] (`i != 1` guards
the separator).  A builtin whose reverse lookup fails aborts the process
(`none`). -/
def m4_trace_pre_loop (ctx : DebugCtx) : List TokenData → Bool → TraceState →
    Option TraceState
  | [], _, st => some st
  | a :: rest, first, st =>
    ((if first then some st else m4_trace_format ctx ", " [] st).bind fun st1 =>
      match a with
      | TokenData.text t => m4_trace_format ctx "%l%S%r" [TArg.str t] st1
      | TokenData.func f =>
        match ctx.builtin_name f with
        | some bn => m4_trace_format ctx "<%s>" [TArg.str bn] st1
        | none => none).bind fun st2 =>
    m4_trace_pre_loop ctx rest false st2

/-- m4_trace_pre (src/m4/debug.c, lines 352-402): `args` holds argv[1..].
argc, the 1-based count including the name, is args.length + 1. -/
def m4_trace_pre (ctx : DebugCtx) (name : String) (id : Int)
    (args : List TokenData) (st : TraceState) : Option TraceState :=
  (m4_trace_header ctx id st).bind fun st1 =>
  (m4_trace_format ctx "%s" [TArg.str name] st1).bind fun st2 =>
  (if args.length + 1 > 1 ∧ hasFlag ctx.debug_level M4_DEBUG_TRACE_ARGS then
      (m4_trace_format ctx "(" [] st2).bind fun st3 =>
      (m4_trace_pre_loop ctx args true st3).bind fun st4 =>
      m4_trace_format ctx ")" [] st4
    else some st2).bind fun st5 =>
  if hasFlag ctx.debug_level M4_DEBUG_TRACE_CALL then
    (m4_trace_format ctx " -> ???" [] st5).bind fun st6 =>
    some (m4_trace_flush st6)
  else some st5

/-- m4_trace_post (src/m4/debug.c, lines 409-422): `expanded = none` models
a NULL expansion text. -/
def m4_trace_post (ctx : DebugCtx) (name : String) (id : Int)
    (args : List TokenData) (expanded : Option String) (st : TraceState) :
    Option TraceState :=
  (if hasFlag ctx.debug_level M4_DEBUG_TRACE_CALL then
      (m4_trace_header ctx id st).bind fun st1 =>
      m4_trace_format ctx "%s%s"
        [TArg.str name, TArg.str (if args.length + 1 > 1 then "(...)" else "")] st1
    else some st).bind fun st2 =>
  (match expanded with
    | some e =>
      if hasFlag ctx.debug_level M4_DEBUG_TRACE_EXPANSION then
        m4_trace_format ctx " -> %l%S%r" [TArg.str e] st2
      else some st2
    | none => some st2).bind fun st3 =>
  some (m4_trace_flush st3)

/-- A warning request: one call of m4_warn, identified by the format string
used in the source and its arguments.  m4_bad_argc / m4_numeric_arg issue
these; whether the request is printed, suppressed, or escalated is the
business of m4_warn itself (modelled below by DiagState). -/
inductive Warning where
  | tooFew (name : String) (given required : Nat)
  | extraIgnored (name : String) (given allowed : Nat)
  | emptyTreatedAsZero (name : String)
  | nonNumeric (name : String) (arg : List Char)
deriving DecidableEq

/-- m4_bad_argc (src/m4/utility.c, lines 42-60): argc is the 1-based count
including the macro name (so argc ≥ 1 and the unsigned comparison
`argc - 1 < min` coincides with Nat subtraction); returns the list of
warning requests issued, in order, together with the C return value. -/
def m4_bad_argc (name : String) (argc : Nat) (minA maxA : Nat)
    (side_effect : Bool) : List Warning × Bool :=
  if argc - 1 < minA then
    ([Warning.tooFew name (argc - 1) minA], ! side_effect)
  else if argc - 1 > maxA then
    ([Warning.extraIgnored name (argc - 1) maxA], false)
  else ([], false)

/-- skip_space (src/m4/utility.c, lines 62-68): drop leading characters that
the external syntax table marks as M4_SYNTAX_SPACE; the table is supplied
as the predicate `isSpace`. -/
def skip_space (isSpace : Char → Bool) : List Char → List Char
  | [] => []
  | c :: cs => if isSpace c then skip_space isSpace cs else c :: cs

/-- C-locale isspace, used by strtol itself before parsing. -/
def isCSpace (c : Char) : Bool :=
  c = ' ' ∨ c = '\t' ∨ c = '\n' ∨ c = '\x0b' ∨ c = '\x0c' ∨ c = '\r'

/-- Numeric value of a list of decimal digit characters. -/
def digitsVal : List Char → Nat → Nat
  | [], acc => acc
  | c :: cs, acc => digitsVal cs (acc * 10 + (c.toNat - '0'.toNat))

/-- Model of C strtol with base 10 on the byte sequence `s`: skip C
whitespace, then an optional sign, then decimal digits; the second
component is the end pointer (the bytes after the last digit), which is
the original `s` when no digits were found.  Overflow clamping to LONG_MAX
is not modelled; no property below reaches it. -/
def strtol10 (s : List Char) : Int × List Char :=
  let t := s.dropWhile isCSpace
  let sign : Int := if t.head? = some '-' then -1 else 1
  let t2 := if t.head? = some '-' ∨ t.head? = some '+' then t.tail else t
  let ds := t2.takeWhile fun c => c.isDigit
  if ds = [] then (0, s)
  else (sign * Int.ofNat (digitsVal ds 0), t2.dropWhile fun c => c.isDigit)

/-- The outcome of m4_numeric_arg: the final contents of *valuep, the
warning requests issued, and the C return value. -/
structure NumArgResult where
  valuep : Int
  warnings : List Warning
  ok : Bool
deriving DecidableEq

/-- m4_numeric_arg (src/m4/utility.c, lines 75-97): `name` is M4ARG(0), the
macro name used in warnings, `arg` the argument text M4ARG(arg), and
`valuep0` the contents of *valuep on entry. -/
def m4_numeric_arg (isSpace : Char → Bool) (name : String) (arg : List Char)
    (valuep0 : Int) : NumArgResult :=
  if arg = [] then
    { valuep := 0, warnings := [Warning.emptyTreatedAsZero name], ok := true }
  else
    let r := strtol10 (skip_space isSpace arg)
    if skip_space isSpace r.2 ≠ [] then
      { valuep := r.1, warnings := [Warning.nonNumeric name arg], ok := false }
    else
      { valuep := r.1, warnings := [], ok := true }

/-- The process-wide diagnostic state read and written by m4_error /
m4_warn: the option flags and the sticky exit-status failure flag
(m4_set_exit_status context EXIT_FAILURE). -/
structure DiagState where
  suppress_warnings : Bool
  fatal_warnings : Bool
  exit_status_failed : Bool
deriving DecidableEq

/-- One diagnostic line as handed to verror_at_line: whether it carries the
"Warning: " prefix, and its message text. -/
structure DiagMsg where
  warning_prefixed : Bool
  msg : String
deriving DecidableEq

/-- The outcome of a diagnostic call: either verror_at_line terminated the
process with the given exit status (its STATUS argument was non-zero), or
the call returned with a new diagnostic state; in both cases `emitted`
lists the lines printed. -/
inductive DiagOutcome where
  | exited (status : Int) (emitted : List DiagMsg)
  | returned (st : DiagState) (emitted : List DiagMsg)
deriving DecidableEq

/-- EXIT_SUCCESS. -/
def EXIT_SUCCESS : Int := 0

/-- EXIT_FAILURE. -/
def EXIT_FAILURE : Int := 1

/-- m4_error (src/m4/utility.c, lines 125-137): escalate a zero status when
warnings are fatal, print through verror_at_line (which exits when the
status is non-zero), and otherwise record the sticky failure flag. -/
def m4_error (st : DiagState) (status : Int) (msg : String) : DiagOutcome :=
  let status2 := if status = EXIT_SUCCESS ∧ st.fatal_warnings then EXIT_FAILURE
                 else status
  if status2 ≠ 0 then DiagOutcome.exited status2 [{ warning_prefixed := false, msg := msg }]
  else DiagOutcome.returned { st with exit_status_failed := true }
         [{ warning_prefixed := false, msg := msg }]

/-- m4_warn (src/m4/utility.c, lines 165-186): do nothing at all when
warnings are suppressed; otherwise print with the "Warning: " prefix
through verror_at_line, with a non-zero (hence terminating) status exactly
when warnings are fatal.  The returned diagnostic state is untouched: the
warning path never sets the failure flag. -/
def m4_warn (st : DiagState) (msg : String) : DiagOutcome :=
  if st.suppress_warnings then DiagOutcome.returned st []
  else
    let status := if st.fatal_warnings then EXIT_FAILURE else EXIT_SUCCESS
    if status ≠ 0 then DiagOutcome.exited status [{ warning_prefixed := true, msg := msg }]
    else DiagOutcome.returned st [{ warning_prefixed := true, msg := msg }]

/-- A stream that the debug destination can be: stdout, stderr, or an
opened file handle. -/
inductive StreamRef where
  | stdoutS
  | stderrS
  | file (h : Nat)
deriving DecidableEq

/-- The host environment seen by the router: fopen (name, "a") either
yields a fresh handle or fails, and fstat either yields the (st_dev,
st_ino) identity of a stream or fails. -/
structure FsEnv where
  fopen_a : String → Option Nat
  fstat : StreamRef → Option (Nat × Nat)

/-- The router's state: the current value of the global m4_debug (`none`
models the NULL = discard destination) and the log of streams fclosed so
far. -/
structure DebugOut where
  m4_debug : Option StreamRef
  closed : List StreamRef

/-- m4_debug_set_file (src/m4/debug.c, lines 132-156): close the previous
destination unless it is a shared default stream, install `fp`, then — when
`fp` is a real stream other than stdout and both fstats succeed — alias the
destination to stdout itself if device and inode match, closing the
separately opened stream. -/
def m4_debug_set_file (env : FsEnv) (st : DebugOut) (fp : Option StreamRef) :
    DebugOut :=
  let closed1 := st.closed ++
    (match st.m4_debug with
     | some r => if r ≠ StreamRef.stderrS ∧ r ≠ StreamRef.stdoutS then [r] else []
     | none => [])
  match fp with
  | none => { m4_debug := none, closed := closed1 }
  | some r =>
    if r = StreamRef.stdoutS then { m4_debug := some r, closed := closed1 }
    else
      match env.fstat StreamRef.stdoutS with
      | none => { m4_debug := some r, closed := closed1 }
      | some stdout_stat =>
        match env.fstat r with
        | none => { m4_debug := some r, closed := closed1 }
        | some debug_stat =>
          if stdout_stat.2 = debug_stat.2 ∧ stdout_stat.1 = debug_stat.1 then
            { m4_debug := some StreamRef.stdoutS,
              closed := closed1 ++ (if r ≠ StreamRef.stderrS then [r] else []) }
          else { m4_debug := some r, closed := closed1 }

/-- m4_debug_set_output (src/m4/debug.c, lines 177-195): NULL reverts to
stderr, an empty name discards output, any other name is opened for
appending; a failed open changes nothing and returns FALSE. -/
def m4_debug_set_output (env : FsEnv) (st : DebugOut) (name : Option String) :
    DebugOut × Bool :=
  match name with
  | none => (m4_debug_set_file env st (some StreamRef.stderrS), true)
  | some n =>
    if n = "" then (m4_debug_set_file env st none, true)
    else
      match env.fopen_a n with
      | none => (st, false)
      | some h => (m4_debug_set_file env st (some (StreamRef.file h)), true)

/-- A sample ambient context with exactly the call, args, expansion and
quote flags set, quotes < and >, and no argument length limit. -/
def sampleCtx : DebugCtx :=
  { debug_level := M4_DEBUG_TRACE_CALL ||| M4_DEBUG_TRACE_ARGS |||
      M4_DEBUG_TRACE_EXPANSION ||| M4_DEBUG_TRACE_QUOTE
    lquote := "<"
    rquote := ">"
    max_debug_argument_length := 0
    m4_current_file := "in"
    m4_current_line := 3
    m4_expansion_level := 1
    builtin_name := fun _ => none }

/-- The %S behaviour exactly as the claim words it (for comparison with the
code): if the verbose flag is carried, the first max_debug_argument_length
characters are copied, otherwise the string is copied in full; the ellipsis
is appended exactly when truncation occurred and the limit was strictly
smaller than the string's length. -/
def claimS_copy (verbose : Bool) (maxlen : Nat) (s : String) : List Char :=
  let copied := if verbose then s.toList.take maxlen else s.toList
  if copied ≠ s.toList ∧ maxlen < s.length then copied ++ ['.', '.', '.']
  else copied

/-! Helper lemmas: evaluation of m4_trace_format on each format string the
tracing code uses, with the variadic arguments symbolic. -/

/-- Format "m4trace:" copies its literal text. -/
theorem tf_lit_m4trace (ctx : DebugCtx) (st : TraceState) :
    m4_trace_format ctx "m4trace:" [] st
      = some { st with buf := st.buf ++ "m4trace:".toList } := by
  simp [m4_trace_format, runFmt, scanTo, runDirective]

/-- Format "%s" copies its string argument in full. -/
theorem tf_s (ctx : DebugCtx) (a : String) (st : TraceState) :
    m4_trace_format ctx "%s" [TArg.str a] st
      = some { st with buf := st.buf ++ a.toList } := by
  simp [m4_trace_format, runFmt, scanTo, runDirective]

/-- Format "%s ..." as used by m4_trace_prepre. -/
theorem tf_s_dots (ctx : DebugCtx) (a : String) (st : TraceState) :
    m4_trace_format ctx "%s ..." [TArg.str a] st
      = some { st with buf := st.buf ++ a.toList ++ " ...".toList } := by
  simp [m4_trace_format, runFmt, scanTo, runDirective]

/-- Format " -%d- " as used by m4_trace_header for the expansion level. -/
theorem tf_level (ctx : DebugCtx) (d : Int) (st : TraceState) :
    m4_trace_format ctx " -%d- " [TArg.int d] st
      = some { st with buf := st.buf ++ " -".toList ++ (sprintf_d d).toList
                 ++ "- ".toList } := by
  simp [m4_trace_format, runFmt, scanTo, runDirective]

/-- Format "(" copies its literal text. -/
theorem tf_lparen (ctx : DebugCtx) (st : TraceState) :
    m4_trace_format ctx "(" [] st = some { st with buf := st.buf ++ "(".toList } := by
  simp [m4_trace_format, runFmt, scanTo, runDirective]

/-- Format ")" copies its literal text. -/
theorem tf_rparen (ctx : DebugCtx) (st : TraceState) :
    m4_trace_format ctx ")" [] st = some { st with buf := st.buf ++ ")".toList } := by
  simp [m4_trace_format, runFmt, scanTo, runDirective]

/-- Format ", " copies its literal text. -/
theorem tf_sep (ctx : DebugCtx) (st : TraceState) :
    m4_trace_format ctx ", " [] st = some { st with buf := st.buf ++ ", ".toList } := by
  simp [m4_trace_format, runFmt, scanTo, runDirective]

/-- Format " -> ???" copies its literal text. -/
theorem tf_arrow_unknown (ctx : DebugCtx) (st : TraceState) :
    m4_trace_format ctx " -> ???" [] st
      = some { st with buf := st.buf ++ " -> ???".toList } := by
  simp [m4_trace_format, runFmt, scanTo, runDirective]

/-- Format "%l%S%r" with the quote flag set and no length limit copies the
quoted argument. -/
theorem tf_quoted (ctx : DebugCtx) (t : String) (st : TraceState)
    (hq : hasFlag ctx.debug_level M4_DEBUG_TRACE_QUOTE = true)
    (hm : ctx.max_debug_argument_length = 0) :
    m4_trace_format ctx "%l%S%r" [TArg.str t] st
      = some { st with buf := st.buf ++ ctx.lquote.toList ++ t.toList
                 ++ ctx.rquote.toList } := by
  simp [m4_trace_format, runFmt, scanTo, runDirective, hq, hm]

/-- Format "%s%s" copies both string arguments in full. -/
theorem tf_ss (ctx : DebugCtx) (a b : String) (st : TraceState) :
    m4_trace_format ctx "%s%s" [TArg.str a, TArg.str b] st
      = some { st with buf := st.buf ++ a.toList ++ b.toList } := by
  simp [m4_trace_format, runFmt, scanTo, runDirective]

/-- Format " -> %l%S%r" with the quote flag set and no length limit. -/
theorem tf_arrow_quoted (ctx : DebugCtx) (t : String) (st : TraceState)
    (hq : hasFlag ctx.debug_level M4_DEBUG_TRACE_QUOTE = true)
    (hm : ctx.max_debug_argument_length = 0) :
    m4_trace_format ctx " -> %l%S%r" [TArg.str t] st
      = some { st with buf := st.buf ++ " -> ".toList ++ ctx.lquote.toList
                 ++ t.toList ++ ctx.rquote.toList } := by
  simp [m4_trace_format, runFmt, scanTo, runDirective, hq, hm]

/-- Scanning a byte sequence that opens with terminator-free literal text
stops at the first terminator and hands back the bytes after it. -/
theorem scanTo_clean (g : List Char) (hg0 : '\x00' ∉ g) (hgp : '%' ∉ g) :
    ∀ l c, (c = '\x00' ∨ c = '%') → scanTo (g ++ c :: l) = (g, some (c, l)) := by
  induction g with
  | nil => intro l c hc; simp [scanTo, hc]
  | cons a as ih =>
    intro l c hc
    simp only [List.mem_cons, not_or] at hg0 hgp
    simp [scanTo, ih hg0.2 hgp.2 l c hc, Ne.symm hg0.1, Ne.symm hgp.1]

/-- On a NUL-free byte sequence the scan either runs off the known bytes or
stops at a '%' with a NUL-free remainder. -/
theorem scanTo_no_nul (bytes : List Char) (h : '\x00' ∉ bytes) :
    (scanTo bytes).2 = none ∨
    ∃ lit rest, scanTo bytes = (lit, some ('%', rest)) ∧ '\x00' ∉ rest := by
  induction bytes with
  | nil => simp [scanTo]
  | cons c cs ih =>
    simp only [List.mem_cons, not_or] at h
    by_cases hc : c = '\x00' ∨ c = '%'
    · rcases hc with rfl | rfl
      · exact absurd rfl h.1
      · exact Or.inr ⟨[], cs, by simp [scanTo], h.2⟩
    · rcases ih h.2 with h1 | ⟨lit, rest, h1, h2⟩
      · left; simp [scanTo, hc]
        cases hs : (scanTo cs) with
        | mk a b => rw [hs] at h1; simpa using h1
      · right
        exact ⟨c :: lit, rest, by simp [scanTo, hc, h1], h2⟩

/-- The formatter never produces a result from a byte sequence containing no
NUL at all, whatever the fuel: it keeps scanning for a terminator. -/
theorem runFmt_no_nul (ctx : DebugCtx) :
    ∀ (n : Nat) (bytes : List Char) (args : List TArg) (acc : List Char),
      '\x00' ∉ bytes → runFmt ctx n bytes args acc = none := by
  intro n
  induction n with
  | zero => intro bytes args acc _; rfl
  | succ m ih =>
    intro bytes args acc hb
    rcases scanTo_no_nul bytes hb with h1 | ⟨lit, rest, h1, h2⟩
    · cases hs : scanTo bytes with
      | mk a b =>
        rw [hs] at h1; simp at h1; subst h1
        simp [runFmt, hs]
    · cases rest with
      | nil => rw [runFmt, h1]; simp
      | cons d rest2 =>
        simp only [List.mem_cons, not_or] at h2
        cases hrd : runDirective ctx d args with
        | none => rw [runFmt, h1]; simp [hrd]
        | some p =>
          rw [runFmt, h1]
          simp only [hrd]
          simp only [show ('%' : Char) = '\x00' ↔ False from by decide, if_false,
            iff_false]
          exact ih rest2 p.2 (acc ++ lit ++ p.1) h2.2

/-- A character outside the documented letter set has no flag bit. -/
theorem flagBit_none_of_unknown {c : Char}
    (h : c ∉ ['a', 'e', 'q', 't', 'l', 'f', 'p', 'c', 'i', 'x', 'V']) :
    flagBit c = none := by
  simp only [List.mem_cons, List.not_mem_nil, or_false, not_or] at h
  obtain ⟨h1, h2, h3, h4, h5, h6, h7, h8, h9, h10, h11⟩ := h
  simp [flagBit, h1, h2, h3, h4, h5, h6, h7, h8, h9, h10, h11]

/-- The decode loop fails as a whole once any character lacks a flag bit,
whatever partial level had been accumulated. -/
theorem decodeChars_bad : ∀ (l : List Char) (level : Nat),
    (∃ c ∈ l, flagBit c = none) → decodeChars l level = -1 := by
  intro l
  induction l with
  | nil => intro level h; simp at h
  | cons c cs ih =>
    intro level h
    cases hb : flagBit c with
    | none => simp [decodeChars, hb]
    | some b =>
      rcases h with ⟨d, hd, hdn⟩
      rcases List.mem_cons.mp hd with rfl | hd2
      · rw [hb] at hdn; exact absurd hdn (by simp)
      · simp only [decodeChars, hb]
        exact ih (level ||| b) ⟨d, hd2, hdn⟩

/-- A decimal digit is not C whitespace. -/
theorem isDigit_not_cspace {c : Char} (h : c.isDigit = true) : isCSpace c = false := by
  rcases hc : isCSpace c with _ | _
  · rfl
  exfalso
  have hd : c = ' ' ∨ c = '\t' ∨ c = '\n' ∨ c = '\x0b' ∨ c = '\x0c' ∨ c = '\r' := by
    simpa [isCSpace] using hc
  rcases hd with rfl | rfl | rfl | rfl | rfl | rfl <;> exact absurd h (by decide)

/-- A decimal digit is neither sign character. -/
theorem isDigit_ne_sign {c : Char} (h : c.isDigit = true) : c ≠ '-' ∧ c ≠ '+' := by
  constructor <;> rintro rfl <;> exact absurd h (by decide)

/-- skip_space drops a leading all-space block. -/
theorem skip_space_append (isSpace : Char → Bool) :
    ∀ (w r : List Char), (∀ c ∈ w, isSpace c = true) →
      skip_space isSpace (w ++ r) = skip_space isSpace r := by
  intro w
  induction w with
  | nil => intro r _; rfl
  | cons a as ih =>
    intro r h
    have ha : isSpace a = true := h a (List.mem_cons_self a as)
    simp only [List.cons_append, skip_space, ha, if_pos]
    exact ih r fun c hc => h c (List.mem_cons_of_mem a hc)

/-- skip_space is the identity when the first character is not a space. -/
theorem skip_space_of_head (isSpace : Char → Bool) (c : Char) (r : List Char)
    (h : isSpace c = false) : skip_space isSpace (c :: r) = c :: r := by
  simp [skip_space, h]

/-- skip_space exhausts an all-space sequence. -/
theorem skip_space_all (isSpace : Char → Bool) :
    ∀ (w : List Char), (∀ c ∈ w, isSpace c = true) → skip_space isSpace w = [] := by
  intro w
  induction w with
  | nil => intro _; rfl
  | cons a as ih =>
    intro h
    have ha : isSpace a = true := h a (List.mem_cons_self a as)
    simp only [skip_space, ha, if_pos]
    exact ih fun c hc => h c (List.mem_cons_of_mem a hc)

/-- takeWhile and dropWhile split exactly at the boundary of an all-true
block followed by a head that fails the predicate. -/
theorem takeWhile_dropWhile_append (p : Char → Bool) :
    ∀ (ds w2 : List Char), (∀ c ∈ ds, p c = true) →
      (∀ c, w2.head? = some c → p c = false) →
      (ds ++ w2).takeWhile p = ds ∧ (ds ++ w2).dropWhile p = w2 := by
  intro ds
  induction ds with
  | nil =>
    intro w2 _ h2
    cases w2 with
    | nil => exact ⟨rfl, rfl⟩
    | cons c cs =>
      have := h2 c rfl
      constructor <;> simp [List.takeWhile, List.dropWhile, this]
  | cons a as ih =>
    intro w2 h1 h2
    have ha : p a = true := h1 a (List.mem_cons_self a as)
    have hrec := ih w2 (fun c hc => h1 c (List.mem_cons_of_mem a hc)) h2
    constructor <;> simp [List.takeWhile, List.dropWhile, ha, hrec.1, hrec.2]

/-- strtol10 on a nonempty digit block followed by a non-digit remainder
parses the block and ends exactly at the remainder. -/
theorem strtol10_digits (ds w2 : List Char)
    (hds : ∀ c ∈ ds, c.isDigit = true) (hne : ds ≠ [])
    (hw2 : ∀ c, w2.head? = some c → c.isDigit = false) :
    strtol10 (ds ++ w2) = (Int.ofNat (digitsVal ds 0), w2) := by
  obtain ⟨d, ds2, rfl⟩ : ∃ d ds2, ds = d :: ds2 := by
    cases ds with
    | nil => exact absurd rfl hne
    | cons d ds2 => exact ⟨d, ds2, rfl⟩
  have hd : d.isDigit = true := hds d (List.mem_cons_self d ds2)
  have hdrop : (d :: ds2 ++ w2).dropWhile isCSpace = d :: (ds2 ++ w2) := by
    rw [List.cons_append]
    exact List.dropWhile_cons_of_neg (by simp [isDigit_not_cspace hd])
  have htd := takeWhile_dropWhile_append (fun c => c.isDigit) (d :: ds2) w2 hds hw2
  have hsign := isDigit_ne_sign hd
  simp only [strtol10, hdrop, List.head?_cons, Option.some.injEq]
  rw [if_neg hsign.1, if_neg (not_or.mpr ⟨hsign.1, hsign.2⟩)]
  simp only [List.cons_append] at htd
  rw [htd.1, htd.2]
  simp

/-- Claim C1, counterexample: the %S directive does not behave as claimed.
With the verbose flag clear and limit 1, the string "xy" is claimed to be
copied in full ("xy"), but the code emits "x..."; with the verbose flag set
and limit 2 (equal to the length, so not strictly smaller), the claim
predicts "xy" with no ellipsis, but the code emits "xy...". -/
theorem trace_format_S_counterexample :
    (m4_trace_format
        { debug_level := 0, lquote := "<", rquote := ">",
          max_debug_argument_length := 1, m4_current_file := "",
          m4_current_line := 0, m4_expansion_level := 0,
          builtin_name := fun _ => none }
        "%S" [TArg.str "xy"] { buf := [], lines := [] }
       = some { buf := ['x', '.', '.', '.'], lines := [] })
  ∧ claimS_copy false 1 "xy" = ['x', 'y']
  ∧ (m4_trace_format
        { debug_level := M4_DEBUG_TRACE_VERBOSE, lquote := "<", rquote := ">",
          max_debug_argument_length := 2, m4_current_file := "",
          m4_current_line := 0, m4_expansion_level := 0,
          builtin_name := fun _ => none }
        "%S" [TArg.str "xy"] { buf := [], lines := [] }
       = some { buf := ['x', 'y', '.', '.', '.'], lines := [] })
  ∧ claimS_copy true 2 "xy" = ['x', 'y']
  ∧ (['x', '.', '.', '.'] : List Char) ≠ ['x', 'y']
  ∧ (['x', 'y', '.', '.', '.'] : List Char) ≠ ['x', 'y'] := by
  refine ⟨?_, by decide, ?_, by decide, by decide, by decide⟩ <;> rfl

/-- Claim C1, amended: for the %S directive, for every string argument s and
every debug level (the verbose flag plays no role), the first
max_debug_argument_length characters of s are copied exactly when that limit
is non-zero and at most the length of s, otherwise s is copied in full; the
literal ellipsis "..." is appended exactly when the limit is non-zero and at
most (not necessarily strictly smaller than) the length of s. -/
theorem trace_format_S_amended (ctx : DebugCtx) (s : String) (st : TraceState) :
    m4_trace_format ctx "%S" [TArg.str s] st
      = some { st with buf := st.buf ++
          (if ctx.max_debug_argument_length = 0 ∨ ctx.max_debug_argument_length > s.length
           then s.toList
           else s.toList.take ctx.max_debug_argument_length ++ ['.', '.', '.']) } := by
  by_cases h : ctx.max_debug_argument_length = 0 ∨ ctx.max_debug_argument_length > s.length
  · simp [m4_trace_format, runFmt, scanTo, runDirective, h]
  · simp [m4_trace_format, runFmt, scanTo, runDirective, h]

/-- Claim C2: with exactly the call, args, expansion and quote flags set,
quotes "<" and ">", and no argument length limit, the full lifecycle
trace_before_arguments, trace_before_expansion, trace_after_expansion on a
macro `name` with text arguments "x" and "y", the same call id, and
expansion result `res`, flushes exactly three lines in order: the
pre-arguments line `name ...`, the call-start line `name(<x>, <y>) -> ???`,
and the call-end line `name(...) -> <res>`, each behind the same header. -/
theorem trace_lifecycle_three_lines (ctx : DebugCtx) (name res : String) (id : Int)
    (hdl : ctx.debug_level = M4_DEBUG_TRACE_CALL ||| M4_DEBUG_TRACE_ARGS |||
           M4_DEBUG_TRACE_EXPANSION ||| M4_DEBUG_TRACE_QUOTE)
    (hl : ctx.lquote = "<") (hr : ctx.rquote = ">")
    (hm : ctx.max_debug_argument_length = 0) :
    ((m4_trace_prepre ctx name id { buf := [], lines := [] }).bind fun s1 =>
     (m4_trace_pre ctx name id [TokenData.text "x", TokenData.text "y"] s1).bind fun s2 =>
      m4_trace_post ctx name id [TokenData.text "x", TokenData.text "y"] (some res) s2)
    = some { buf := [], lines :=
        ["m4trace:".toList ++ " -".toList ++ (sprintf_d ctx.m4_expansion_level).toList
           ++ "- ".toList ++ name.toList ++ " ...".toList,
         "m4trace:".toList ++ " -".toList ++ (sprintf_d ctx.m4_expansion_level).toList
           ++ "- ".toList ++ name.toList ++ "(<x>, <y>) -> ???".toList,
         "m4trace:".toList ++ " -".toList ++ (sprintf_d ctx.m4_expansion_level).toList
           ++ "- ".toList ++ name.toList ++ "(...) -> <".toList ++ res.toList
           ++ ">".toList] } := by
  have hqf : hasFlag ctx.debug_level M4_DEBUG_TRACE_QUOTE = true := by rw [hdl]; decide
  have hfile : hasFlag ctx.debug_level M4_DEBUG_TRACE_FILE = false := by rw [hdl]; decide
  have hline : hasFlag ctx.debug_level M4_DEBUG_TRACE_LINE = false := by rw [hdl]; decide
  have hcid : hasFlag ctx.debug_level M4_DEBUG_TRACE_CALLID = false := by rw [hdl]; decide
  have hargs : hasFlag ctx.debug_level M4_DEBUG_TRACE_ARGS = true := by rw [hdl]; decide
  have hcall : hasFlag ctx.debug_level M4_DEBUG_TRACE_CALL = true := by rw [hdl]; decide
  have hexp : hasFlag ctx.debug_level M4_DEBUG_TRACE_EXPANSION = true := by rw [hdl]; decide
  simp [m4_trace_prepre, m4_trace_pre, m4_trace_post, m4_trace_header, m4_trace_pre_loop,
        m4_trace_flush, hqf, hfile, hline, hcid, hargs, hcall, hexp, hl, hr, hm,
        tf_lit_m4trace, tf_s, tf_s_dots, tf_level, tf_lparen, tf_rparen, tf_sep,
        tf_arrow_unknown, tf_quoted, tf_ss, tf_arrow_quoted]

/-- Claim C2, witness: the lifecycle theorem instantiated on the sample
context, macro "f", arguments "x" and "y", call id 7, and result "z". -/
theorem trace_lifecycle_three_lines_witness :
    ((m4_trace_prepre sampleCtx "f" 7 { buf := [], lines := [] }).bind fun s1 =>
     (m4_trace_pre sampleCtx "f" 7 [TokenData.text "x", TokenData.text "y"] s1).bind fun s2 =>
      m4_trace_post sampleCtx "f" 7 [TokenData.text "x", TokenData.text "y"] (some "z") s2)
    = some { buf := [], lines :=
        ["m4trace:".toList ++ " -".toList ++ (sprintf_d 1).toList
           ++ "- ".toList ++ "f".toList ++ " ...".toList,
         "m4trace:".toList ++ " -".toList ++ (sprintf_d 1).toList
           ++ "- ".toList ++ "f".toList ++ "(<x>, <y>) -> ???".toList,
         "m4trace:".toList ++ " -".toList ++ (sprintf_d 1).toList
           ++ "- ".toList ++ "f".toList ++ "(...) -> <".toList ++ "z".toList
           ++ ">".toList] } :=
  trace_lifecycle_three_lines sampleCtx "f" "z" 7 rfl rfl rfl rfl

/-- Claim C3: for 1-based argc, m4_bad_argc issues exactly one too-few
warning and returns the negation of side_effect when argc - 1 < min;
otherwise exactly one extra-arguments warning and false when
argc - 1 > max; otherwise no warning and false — and it returns true
exactly when the minimum was unmet and side_effect is false. -/
theorem bad_argc_spec (name : String) (argc minA maxA : Nat) (se : Bool)
    (h : 1 ≤ argc) :
    (argc - 1 < minA →
       m4_bad_argc name argc minA maxA se
         = ([Warning.tooFew name (argc - 1) minA], ! se))
  ∧ (¬ argc - 1 < minA → argc - 1 > maxA →
       m4_bad_argc name argc minA maxA se
         = ([Warning.extraIgnored name (argc - 1) maxA], false))
  ∧ (¬ argc - 1 < minA → ¬ argc - 1 > maxA →
       m4_bad_argc name argc minA maxA se = ([], false))
  ∧ ((m4_bad_argc name argc minA maxA se).2 = true ↔
       argc - 1 < minA ∧ se = false) := by
  refine ⟨fun h1 => by simp [m4_bad_argc, h1], fun h1 h2 => by simp [m4_bad_argc, h1, h2],
          fun h1 h2 => by simp [m4_bad_argc, h1, h2], ?_⟩
  by_cases h1 : argc - 1 < minA
  · simp only [m4_bad_argc, if_pos h1]
    cases se <;> simp [h1]
  · by_cases h2 : argc - 1 > maxA <;> simp [m4_bad_argc, h1, h2]

/-- Claim C3, witness: macro "m" called with one argument against a minimum
of three returns true (empty result guaranteed) with the too-few warning. -/
theorem bad_argc_spec_witness :
    ((m4_bad_argc "m" 2 3 5 false).2 = true ↔ 2 - 1 < 3 ∧ false = false)
  ∧ m4_bad_argc "m" 2 3 5 false = ([Warning.tooFew "m" 1 3], true) :=
  ⟨(bad_argc_spec "m" 2 3 5 false (by decide)).2.2.2,
   (bad_argc_spec "m" 2 3 5 false (by decide)).1 (by decide)⟩

/-- Claim C4: m4_numeric_arg converts an empty argument to 0 with one
warning and success; converts syntax-table whitespace around a nonempty
digit block to its value with no warning and success; on "  42  " yields 42,
no warning, success; on "42x" yields one warning and failure; and whenever
it succeeds the returned value is the parsed one (0 for empty text). -/
theorem numeric_arg_spec :
    (∀ (isSpace : Char → Bool) (name : String) (v0 : Int),
       m4_numeric_arg isSpace name [] v0
         = ⟨0, [Warning.emptyTreatedAsZero name], true⟩)
  ∧ (∀ (isSpace : Char → Bool) (name : String) (v0 : Int) (w1 ds w2 : List Char),
       (∀ c ∈ w1, isSpace c = true) →
       (∀ c ∈ ds, c.isDigit = true ∧ isSpace c = false) →
       ds ≠ [] →
       (∀ c ∈ w2, isSpace c = true ∧ c.isDigit = false) →
       m4_numeric_arg isSpace name (w1 ++ ds ++ w2) v0
         = ⟨Int.ofNat (digitsVal ds 0), [], true⟩)
  ∧ (∀ v0 : Int, m4_numeric_arg isCSpace "n" "  42  ".toList v0 = ⟨42, [], true⟩)
  ∧ (∀ v0 : Int, m4_numeric_arg isCSpace "n" "42x".toList v0
       = ⟨42, [Warning.nonNumeric "n" "42x".toList], false⟩)
  ∧ (∀ (isSpace : Char → Bool) (name : String) (arg : List Char) (v0 : Int),
       (m4_numeric_arg isSpace name arg v0).ok = true →
       (m4_numeric_arg isSpace name arg v0).valuep
         = (if arg = [] then 0 else (strtol10 (skip_space isSpace arg)).1)) := by
  refine ⟨fun isSpace name v0 => rfl, ?_, fun v0 => rfl, fun v0 => rfl, ?_⟩
  · intro isSpace name v0 w1 ds w2 hw1 hds hne hw2
    obtain ⟨d, ds2, rfl⟩ : ∃ d ds2, ds = d :: ds2 := by
      cases ds with
      | nil => exact absurd rfl hne
      | cons d ds2 => exact ⟨d, ds2, rfl⟩
    have hskip : skip_space isSpace (w1 ++ (d :: ds2) ++ w2)
        = (d :: ds2) ++ w2 := by
      rw [List.append_assoc,
          skip_space_append isSpace w1 ((d :: ds2) ++ w2) hw1, List.cons_append]
      exact skip_space_of_head isSpace d (ds2 ++ w2)
        (hds d (List.mem_cons_self d ds2)).2
    have hstr : strtol10 ((d :: ds2) ++ w2)
        = (Int.ofNat (digitsVal (d :: ds2) 0), w2) :=
      strtol10_digits (d :: ds2) w2 (fun c hc => (hds c hc).1) (by simp)
        (fun c hc => by
          cases w2 with
          | nil => simp at hc
          | cons b bs =>
            simp only [List.head?_cons, Option.some.injEq] at hc
            subst hc
            exact (hw2 _ (List.mem_cons_self _ bs)).2)
    have hskipw2 : skip_space isSpace w2 = [] :=
      skip_space_all isSpace w2 fun c hc => (hw2 c hc).1
    have hargne : w1 ++ (d :: ds2) ++ w2 ≠ [] := by simp
    simp only [m4_numeric_arg, if_neg hargne, hskip, hstr, hskipw2]
    simp
  · intro isSpace name arg v0 hok
    by_cases he : arg = []
    · simp [m4_numeric_arg, he]
    · by_cases ht : skip_space isSpace (strtol10 (skip_space isSpace arg)).2 = []
      · simp [m4_numeric_arg, he, ht]
      · exfalso
        simp [m4_numeric_arg, he, ht] at hok

/-- Claim C4, witness: the whitespace-around-digits clause instantiated on
the default C whitespace table and "  42  ". -/
theorem numeric_arg_spec_witness :
    m4_numeric_arg isCSpace "n" ([' ', ' '] ++ ['4', '2'] ++ [' ', ' ']) 5
      = ⟨Int.ofNat (digitsVal ['4', '2'] 0), [], true⟩ :=
  numeric_arg_spec.2.1 isCSpace "n" 5 [' ', ' '] ['4', '2'] [' ', ' ']
    (by decide) (by decide) (by decide) (by decide)

/-- Claim C5: any flag string containing a character outside the documented
letter set makes m4_debug_decode fail as a whole with -1, no partial
bitmask, however many valid letters precede it. -/
theorem debug_decode_unknown_flag_fails (s : String)
    (h : ∃ c ∈ s.toList, c ∉ ['a', 'e', 'q', 't', 'l', 'f', 'p', 'c', 'i', 'x', 'V']) :
    m4_debug_decode (some s) = -1 := by
  obtain ⟨c, hc, hcn⟩ := h
  have hs : ¬ (s = "") := by
    rintro rfl; simp at hc
  simp only [m4_debug_decode, if_neg hs]
  exact decodeChars_bad s.toList 0 ⟨c, hc, flagBit_none_of_unknown hcn⟩

/-- Claim C5, witness: decoding "az" fails even though 'a' is valid. -/
theorem debug_decode_unknown_flag_fails_witness :
    m4_debug_decode (some "az") = -1 :=
  debug_decode_unknown_flag_fails "az" (by decide)

/-- Claim C6: m4_debug_set_output selects stderr for a NULL name (when the
identity of stdout differs from that of stderr, so no aliasing applies),
discards output for an empty name, and for any other name opens it for
appending; a failed open leaves the whole previous state unchanged and
returns false, and a successful open installs the opened stream (or the
stdout alias) and returns true. -/
theorem debug_set_output_spec (env : FsEnv) (st : DebugOut) :
    ((∀ p q, env.fstat StreamRef.stdoutS = some p →
        env.fstat StreamRef.stderrS = some q → ¬ (p.2 = q.2 ∧ p.1 = q.1)) →
      (m4_debug_set_output env st none).1.m4_debug = some StreamRef.stderrS ∧
      (m4_debug_set_output env st none).2 = true)
  ∧ ((m4_debug_set_output env st (some "")).1.m4_debug = none ∧
     (m4_debug_set_output env st (some "")).2 = true)
  ∧ (∀ n, n ≠ "" → env.fopen_a n = none →
       m4_debug_set_output env st (some n) = (st, false))
  ∧ (∀ n h, n ≠ "" → env.fopen_a n = some h →
       (m4_debug_set_output env st (some n)).2 = true ∧
       ((m4_debug_set_output env st (some n)).1.m4_debug = some (StreamRef.file h) ∨
        (m4_debug_set_output env st (some n)).1.m4_debug = some StreamRef.stdoutS)) := by
  refine ⟨?_, ?_, ?_, ?_⟩
  · intro hid
    cases hs : env.fstat StreamRef.stdoutS with
    | none => simp [m4_debug_set_output, m4_debug_set_file, hs]
    | some p =>
      cases hf : env.fstat StreamRef.stderrS with
      | none => simp [m4_debug_set_output, m4_debug_set_file, hs, hf]
      | some q =>
        have := hid p q hs hf
        simp [m4_debug_set_output, m4_debug_set_file, hs, hf, this]
  · simp [m4_debug_set_output, m4_debug_set_file]
  · intro n hn hopen
    simp [m4_debug_set_output, hn, hopen]
  · intro n h hn hopen
    cases hs : env.fstat StreamRef.stdoutS with
    | none => simp [m4_debug_set_output, m4_debug_set_file, hn, hopen, hs]
    | some p =>
      cases hf : env.fstat (StreamRef.file h) with
      | none => simp [m4_debug_set_output, m4_debug_set_file, hn, hopen, hs, hf]
      | some q =>
        by_cases heq : p.2 = q.2 ∧ p.1 = q.1
        · simp [m4_debug_set_output, m4_debug_set_file, hn, hopen, hs, hf, heq]
        · simp [m4_debug_set_output, m4_debug_set_file, hn, hopen, hs, hf, heq]

/-- Claim C6, witness: in an environment where every fstat and fopen fails,
a NULL name selects stderr and opening "x" fails leaving state untouched. -/
theorem debug_set_output_spec_witness :
    ((m4_debug_set_output ⟨fun _ => none, fun _ => none⟩ ⟨none, []⟩ none).1.m4_debug
       = some StreamRef.stderrS)
  ∧ (m4_debug_set_output ⟨fun _ => none, fun _ => none⟩ ⟨none, []⟩ (some "x")
       = (⟨none, []⟩, false)) :=
  ⟨((debug_set_output_spec ⟨fun _ => none, fun _ => none⟩ ⟨none, []⟩).1
      (fun p q hp _ => by simp at hp)).1,
   (debug_set_output_spec ⟨fun _ => none, fun _ => none⟩ ⟨none, []⟩).2.2.1 "x"
      (by decide) rfl⟩

/-- Claim C7: m4_warn emits nothing when warnings are suppressed; when it
does emit without fatal warnings it returns the state untouched (never sets
the failure flag); with fatal warnings it terminates with EXIT_FAILURE; and
m4_error with zero status and non-fatal warnings marks the diagnostic state
failed and returns. -/
theorem warn_error_flag_discipline (st : DiagState) (msg : String) :
    (st.suppress_warnings = true → m4_warn st msg = DiagOutcome.returned st [])
  ∧ (st.suppress_warnings = false → st.fatal_warnings = false →
       m4_warn st msg = DiagOutcome.returned st
         [{ warning_prefixed := true, msg := msg }])
  ∧ (st.suppress_warnings = false → st.fatal_warnings = true →
       m4_warn st msg = DiagOutcome.exited EXIT_FAILURE
         [{ warning_prefixed := true, msg := msg }])
  ∧ (st.fatal_warnings = false →
       m4_error st 0 msg
         = DiagOutcome.returned { st with exit_status_failed := true }
             [{ warning_prefixed := false, msg := msg }]) := by
  refine ⟨fun h1 => by simp [m4_warn, h1],
          fun h1 h2 => by simp [m4_warn, h1, h2, EXIT_SUCCESS],
          fun h1 h2 => by simp [m4_warn, h1, h2, EXIT_FAILURE, EXIT_SUCCESS],
          fun h2 => by simp [m4_error, h2, EXIT_SUCCESS, EXIT_FAILURE]⟩

/-- Claim C7, witness: the four clauses instantiated on concrete states. -/
theorem warn_error_flag_discipline_witness :
    (m4_warn ⟨true, false, false⟩ "w" = DiagOutcome.returned ⟨true, false, false⟩ [])
  ∧ (m4_warn ⟨false, false, false⟩ "w"
       = DiagOutcome.returned ⟨false, false, false⟩
           [{ warning_prefixed := true, msg := "w" }])
  ∧ (m4_warn ⟨false, true, false⟩ "w"
       = DiagOutcome.exited EXIT_FAILURE [{ warning_prefixed := true, msg := "w" }])
  ∧ (m4_error ⟨false, false, false⟩ 0 "e"
       = DiagOutcome.returned ⟨false, false, true⟩
           [{ warning_prefixed := false, msg := "e" }]) :=
  ⟨(warn_error_flag_discipline ⟨true, false, false⟩ "w").1 rfl,
   (warn_error_flag_discipline ⟨false, false, false⟩ "w").2.1 rfl rfl,
   (warn_error_flag_discipline ⟨false, true, false⟩ "w").2.2.1 rfl rfl,
   (warn_error_flag_discipline ⟨false, false, false⟩ "e").2.2.2 rfl⟩

/-- Claim C8: when a successful m4_debug_set_output opens a stream whose
device and inode identity equals standard output's, the debug destination
becomes the stdout handle itself and the separately opened stream is
closed. -/
theorem debug_output_stdout_alias (env : FsEnv) (st : DebugOut) (n : String)
    (h : Nat) (idS idF : Nat × Nat)
    (hn : n ≠ "") (hopen : env.fopen_a n = some h)
    (hs : env.fstat StreamRef.stdoutS = some idS)
    (hf : env.fstat (StreamRef.file h) = some idF)
    (heq : idS = idF) :
    (m4_debug_set_output env st (some n)).2 = true ∧
    (m4_debug_set_output env st (some n)).1.m4_debug = some StreamRef.stdoutS ∧
    StreamRef.file h ∈ (m4_debug_set_output env st (some n)).1.closed := by
  subst heq
  simp [m4_debug_set_output, m4_debug_set_file, hn, hopen, hs, hf]

/-- Claim C8, witness: an environment where file handle 5 opened from "t"
shares identity (1, 2) with stdout redirects the destination to stdout. -/
theorem debug_output_stdout_alias_witness :
    (m4_debug_set_output
        ⟨fun s => if s = "t" then some 5 else none,
         fun r => if r = StreamRef.stdoutS ∨ r = StreamRef.file 5 then some (1, 2)
                  else none⟩
        ⟨none, []⟩ (some "t")).1.m4_debug = some StreamRef.stdoutS := by
  have hw := debug_output_stdout_alias
    ⟨fun s => if s = "t" then some 5 else none,
     fun r => if r = StreamRef.stdoutS ∨ r = StreamRef.file 5 then some (1, 2)
              else none⟩
    ⟨none, []⟩ "t" 5 (1, 2) (1, 2) (by decide) (by decide) (by decide) (by decide) rfl
  exact hw.2.1

/-- Claim C9: when m4_numeric_arg fails on a nonempty argument because of
trailing non-numeric content, it returns false but has already written the
value strtol parsed from the leading prefix into *valuep — the result does
not depend on the caller's previous *valuep contents. -/
theorem numeric_arg_failure_writes (isSpace : Char → Bool) (name : String)
    (arg : List Char) (v0 : Int) (hne : arg ≠ [])
    (htrail : skip_space isSpace (strtol10 (skip_space isSpace arg)).2 ≠ []) :
    m4_numeric_arg isSpace name arg v0
      = ⟨(strtol10 (skip_space isSpace arg)).1,
         [Warning.nonNumeric name arg], false⟩ := by
  simp [m4_numeric_arg, hne, htrail]

/-- Claim C9, witness: "42x" with previous *valuep contents 99 fails and
leaves 42, the parsed prefix, in *valuep. -/
theorem numeric_arg_failure_writes_witness :
    m4_numeric_arg isCSpace "n" "42x".toList 99
      = ⟨(strtol10 (skip_space isCSpace "42x".toList)).1,
         [Warning.nonNumeric "n" "42x".toList], false⟩ :=
  numeric_arg_failure_writes isCSpace "n" "42x".toList 99 (by decide) (by decide)

/-- Claim C10: on a format whose bytes end in a lone '%' before the
terminating NUL, the directive dispatch consumes the NUL as the directive
letter and scanning continues into the bytes after the format string: one
step of the formatter on `g ++ "%" ++ NUL ++ rest` continues as the
formatter on `rest`, and when the following memory contains no further NUL
the formatter yields no result within the string's bounds for any fuel. -/
theorem trace_format_lone_percent (ctx : DebugCtx) (g rest : List Char)
    (args : List TArg) (acc : List Char)
    (hg0 : '\x00' ∉ g) (hgp : '%' ∉ g) :
    (∀ n, runFmt ctx (n + 1) (g ++ '%' :: '\x00' :: rest) args acc
        = runFmt ctx n rest args (acc ++ g))
  ∧ ('\x00' ∉ rest →
      ∀ n, runFmt ctx n (g ++ '%' :: '\x00' :: rest) args acc = none) := by
  have hstep : ∀ n, runFmt ctx (n + 1) (g ++ '%' :: '\x00' :: rest) args acc
      = runFmt ctx n rest args (acc ++ g) := by
    intro n
    rw [runFmt, scanTo_clean g hg0 hgp ('\x00' :: rest) '%' (Or.inr rfl)]
    simp [runDirective]
  refine ⟨hstep, fun hnul n => ?_⟩
  cases n with
  | zero => rfl
  | succ m => rw [hstep m]; exact runFmt_no_nul ctx m rest args (acc ++ g) hnul

/-- Claim C10, witness: the formats "a%" followed in memory by the byte 'b'
step past their own NUL, and never produce a result. -/
theorem trace_format_lone_percent_witness :
    (runFmt sampleCtx 4 ['a', '%', '\x00', 'b'] [] []
       = runFmt sampleCtx 3 ['b'] [] ['a'])
  ∧ runFmt sampleCtx 9 ['a', '%', '\x00', 'b'] [] [] = none := by
  have h := trace_format_lone_percent sampleCtx ['a'] ['b'] [] []
    (by decide) (by decide)
  exact ⟨h.1 3, h.2 (by decide) 9⟩

end M4Spec
